import Mathlib

/-!
Verification development for the lunit test framework (roblox-ts).

The definitions below are a shallow embedding of the runner in
src/lunit/test-runner.ts (the current revision), of the tag utilities in
src/src/utils/array-utils.ts, and of the two metadata-registry revisions
(src/unnamed/part_008, the current one imported by the lunit runner, and
src/unnamed/part_005, the older one). Times are modelled in whole
milliseconds; a test body is modelled by its observable behaviour
(completing after d ms, or throwing an error string after d ms); promise
rejection and the catch-all wrappers around lifecycle hooks are modelled
with Except.
-/

namespace Lunit

/-- The Environment enum of common.ts: values are the strings Server and
Client. -/
inductive Env where
  | Server : Env
  | Client : Env
deriving DecidableEq, Repr

/-- The runtime string value of an Environment enum member, as interpolated
into template literals. -/
def Env.toStr : Env → String
  | .Server => "Server"
  | .Client => "Client"

/-- The disabled option object of TestMetadataOptions: a value flag plus an
optional message. -/
structure Disabled where
  value : Bool
  message : Option String
deriving DecidableEq, Repr

/-- TestMetadataOptions of common.ts: every field is optional (undefined is
modelled as none). -/
structure TestMetadataOptions where
  isATest : Option Bool := none
  displayName : Option String := none
  tags : Option (List String) := none
  order : Option Int := none
  timeout : Option Nat := none
  disabled : Option Disabled := none
  environment : Option Env := none
  negated : Option Bool := none
deriving DecidableEq, Repr

/-- TestMethod of common.ts: a method name plus its options descriptor. -/
structure TestMethod where
  name : String
  options : TestMetadataOptions
deriving DecidableEq, Repr

/-- DEFAULT_ORDER of common.ts. -/
def DEFAULT_ORDER : Int := 999

/-- The effective order used by the sort comparator in
getTestsFromTestClass: the order option, with DEFAULT_ORDER substituted for
undefined. -/
def effectiveOrder (t : TestMethod) : Int :=
  t.options.order.getD DEFAULT_ORDER

/-- The comparator passed to the sort in getTestsFromTestClass
(src/lunit/test-runner.ts line 112): a boolean comparator computing
(a.options.order or default) less-or-equal (b.options.order or default).
roblox-ts compiles .sort to Luau table.sort, which requires a strict order;
this comparator is reflexive, so the sorted result on equal keys is not
specified by the source (see the C3 theorem). -/
def orderCmp (a b : TestMethod) : Bool :=
  decide (effectiveOrder a ≤ effectiveOrder b)

/-- sharesOneElement of src/src/utils/array-utils.ts: the smaller array is
turned into a lookup set and each element of the larger array is probed
against it; returns true on the first hit. -/
def sharesOneElement (arr1 arr2 : List String) : Bool :=
  if arr1.length > arr2.length then
    arr1.any fun e => arr2.contains e
  else
    arr2.any fun e => arr1.contains e

/-- The filter predicate applied to each TestList value inside
getTestsFromTestClass (src/lunit/test-runner.ts lines 100-111): drop
descriptors whose isATest is not exactly true; with a non-empty tag filter,
keep a descriptor only when the filter shares an element with the class
tags or with the method tags. -/
def keepTest (tags classTags : List String) (t : TestMethod) : Bool :=
  if t.options.isATest = some true then
    if tags.length > 0 then
      sharesOneElement tags classTags || sharesOneElement tags (t.options.tags.getD [])
    else true
  else false

/-- Observable behaviour of one test body: it either completes without
error after a duration, or throws an error string after a duration. -/
inductive BodyBehavior where
  | completes (durationMs : Nat) : BodyBehavior
  | throws (err : String) (durationMs : Nat) : BodyBehavior
deriving DecidableEq, Repr

/-- Duration of a body behaviour in milliseconds. -/
def bodyDuration : BodyBehavior → Nat
  | .completes d => d
  | .throws _ d => d

/-- The intermediate result record handed to addResult by
handleTestResult and skipTest (before negation is applied). -/
structure RawResult where
  passed : Bool
  skipped : Bool
  timeElapsed : Nat
  errorMessage : Option String := none
deriving DecidableEq, Repr

/-- TestCaseResult of common.ts as stored in the results map (the
classInstance back-reference is omitted; className is the resolved display
string). -/
structure TestCaseResult where
  passed : Bool
  skipped : Bool
  errorMessage : Option String
  timeElapsed : Nat
  className : String
deriving DecidableEq, Repr

/-- The newResult record built inside addResult
(src/lunit/test-runner.ts lines 132-144): when the test is negated and the
raw result is not skipped, the passed flag is inverted; when the test is
negated, the error message becomes the empty string for a raw failure that
was not skipped and the fixed negative-test message otherwise; when not
negated, the raw error message is kept. -/
def mkNewResult (isNegated : Option Bool) (className : String) (result : RawResult) :
    TestCaseResult :=
  { passed := if isNegated = some true ∧ result.skipped = false then !result.passed else result.passed
    skipped := result.skipped
    timeElapsed := result.timeElapsed
    className := className
    errorMessage :=
      if isNegated = some true then
        if result.passed = false ∧ result.skipped ≠ true then some "" else
          some "Test was marked as a negative test and unexpectedly did not error"
      else result.errorMessage }

/-- Status of the raced promise in handleTestResult: Promise.try of the
callback with a timeout resolves exactly when the body completes without
error strictly before the timeout elapses; a throwing body rejects and a
slower body times out, and both give a non-Resolved status. -/
def timedStatusResolved (timeoutMs : Nat) (b : BodyBehavior) : Bool :=
  match b with
  | .completes d => decide (d < timeoutMs)
  | .throws _ _ => false

/-- handleTestResult of src/lunit/test-runner.ts (lines 172-207), as the
raw result it passes to addResult. With a timeout configured, a Resolved
status records a pass and any other status records a failure with the
fixed timeout message; without a timeout, completion records a pass and a
thrown error records a failure carrying the stringified error. -/
def handleTestResult (t : TestMethod) (b : BodyBehavior) : RawResult :=
  match t.options.timeout with
  | some timeout =>
    if timedStatusResolved timeout b then
      { passed := true, skipped := false, timeElapsed := bodyDuration b }
    else
      { passed := false, skipped := false, timeElapsed := min (bodyDuration b) timeout
        errorMessage := some ("Test exceeded timeout of " ++ toString timeout ++ "ms") }
  | none =>
    match b with
    | .completes d => { passed := true, skipped := false, timeElapsed := d }
    | .throws e d => { passed := false, skipped := false, timeElapsed := d, errorMessage := some e }

/-- The raw result built by skipTest (src/lunit/test-runner.ts lines
209-211): not passed, skipped, zero elapsed time, and the reason string
(the parameter default substitutes the empty string for an undefined
reason). -/
def skipRaw (reason : Option String) : RawResult :=
  { passed := false, skipped := true, timeElapsed := 0, errorMessage := some (reason.getD "") }

/-- testIsOnRightEnvironment of src/lunit/test-runner.ts: the current
context is the client and the restriction is Client, or the current
context is the server and the restriction is Server. -/
def testIsOnRightEnvironment (isClient : Bool) (environment : Env) : Bool :=
  match isClient, environment with
  | true, .Client => true
  | false, .Server => true
  | _, _ => false

/-- The lifecycle kinds of the Annotation enum in common.ts. -/
inductive HookKind where
  | BeforeAll : HookKind
  | BeforeEach : HookKind
  | AfterEach : HookKind
  | AfterAll : HookKind
deriving DecidableEq, Repr

/-- The callbacks registered per lifecycle kind on a class, each modelled
by whether invoking it throws. -/
structure HookSet where
  beforeAll : List Bool := []
  beforeEach : List Bool := []
  afterEach : List Bool := []
  afterAll : List Bool := []
deriving DecidableEq, Repr

/-- List of callback behaviours registered for one lifecycle kind, as
returned by getAnnotation. -/
def HookSet.get (h : HookSet) : HookKind → List Bool
  | .BeforeAll => h.beforeAll
  | .BeforeEach => h.beforeEach
  | .AfterEach => h.afterEach
  | .AfterAll => h.afterAll

/-- Observable execution events of one class batch: which lifecycle
callback was invoked (by kind and registration index) and which test
bodies were invoked. -/
inductive Event where
  | hookInvoked (kind : HookKind) (idx : Nat) : Event
  | bodyInvoked (testName : String) : Event
deriving DecidableEq, Repr

/-- Invoking one lifecycle callback: its outcome is ok or an error. -/
def invokeHook (throwsFlag : Bool) : Except String Unit :=
  if throwsFlag then Except.error "hook error" else Except.ok ()

/-- The catch handler attached to every Promise.try around a lifecycle
callback: an error is swallowed and replaced by a successful unit. -/
def catchAll : Except String Unit → Except String Unit
  | .ok u => .ok u
  | .error _ => .ok ()

/-- The loop body of runAnnotatedMethods: each callback is invoked inside
its own Promise.try with a catch, so a step result that were still an
error would abort the remaining iterations, but catchAll never leaves one.
Returns the invocation events and the final outcome. -/
def runHookList (kind : HookKind) : Nat → List Bool → List Event × Except String Unit
  | _, [] => ([], .ok ())
  | i, h :: rest =>
    match catchAll (invokeHook h) with
    | .error e => ([.hookInvoked kind i], .error e)
    | .ok _ =>
      let tail := runHookList kind (i + 1) rest
      (.hookInvoked kind i :: tail.1, tail.2)

/-- runAnnotatedMethods of src/lunit/test-runner.ts (lines 246-257): the
loop over the registered callbacks, wrapped itself in one more
Promise.try with a catch. -/
def runAnnotatedMethods (kind : HookKind) (hooks : List Bool) : List Event × Except String Unit :=
  let body := runHookList kind 0 hooks
  (body.1, catchAll body.2)

/-- One collected test class: the class identity string (tostring of the
constructor), the class-level metadata, the TestList map values in
insertion order (none when the metadata key is absent), the registered
lifecycle callbacks, and the behaviour of each method body by name. -/
structure TestClassDef where
  ctorName : String
  displayName : Option String := none
  classTags : List String := []
  testList : Option (List TestMethod) := none
  hooks : HookSet := {}
  body : String → BodyBehavior := fun _ => .completes 0

/-- getTestsFromTestClass of src/lunit/test-runner.ts (lines 95-113),
without its final sort stage: an absent TestList metadata key yields the
empty list, otherwise the map values are filtered with keepTest. The
omitted sort hands orderCmp to Luau table.sort, whose result is not
specified by the source for equal keys because orderCmp is not a strict
order; no property below depends on the order of this list. -/
def getTestsFromTestClass (cls : TestClassDef) (tags : List String) : List TestMethod :=
  match cls.testList with
  | none => []
  | some values => values.filter (keepTest tags cls.classTags)

/-- Whether the disabled guard of the test loop fires:
test.options.disabled exists and its value field is strictly true. -/
def isDisabledTest (t : TestMethod) : Bool :=
  match t.options.disabled with
  | some d => d.value
  | none => false

/-- Whether the environment guard of the test loop fires: an environment
restriction is set and the current context does not match it. -/
def envMismatch (isClient : Bool) (t : TestMethod) : Bool :=
  match t.options.environment with
  | some environment => !testIsOnRightEnvironment isClient environment
  | none => false

/-- Whether a scheduled test is skipped before its body runs (disabled, or
restricted to the other environment). -/
def skipsBeforeBody (isClient : Bool) (t : TestMethod) : Bool :=
  isDisabledTest t || envMismatch isClient t

/-- The body execution stage of one test-loop iteration: invoke the body,
record its result through handleTestResult and the negation step of
addResult, then run the AfterEach callbacks. -/
def runOneTestBodyStage (cls : TestClassDef) (t : TestMethod)
    (className : String) (beforeEvs : List Event) : List Event × TestCaseResult :=
  (beforeEvs ++ [Event.bodyInvoked t.name]
    ++ (runAnnotatedMethods .AfterEach cls.hooks.afterEach).1,
   mkNewResult t.options.negated className (handleTestResult t (cls.body t.name)))

/-- The environment guard of one test-loop iteration: with a restriction
set and the context wrong, skip with the environment message and continue
past the AfterEach block; otherwise proceed to the body stage. -/
def runOneTestEnvStage (isClient : Bool) (cls : TestClassDef) (t : TestMethod)
    (className : String) (beforeEvs : List Event) : List Event × TestCaseResult :=
  match t.options.environment with
  | some environment =>
    if testIsOnRightEnvironment isClient environment then
      runOneTestBodyStage cls t className beforeEvs
    else
      (beforeEvs, mkNewResult t.options.negated className
        (skipRaw (some ("Test needs to run on " ++ environment.toStr ++ " environment"))))
  | none => runOneTestBodyStage cls t className beforeEvs

/-- One iteration of the test loop in runTestClass
(src/lunit/test-runner.ts lines 218-239): BeforeEach callbacks run first;
a disabled test is skipped at once with the configured disabled message
and the iteration continues past the AfterEach block; a test restricted to
the other environment is skipped with the environment message, likewise
continuing; otherwise the body is invoked, its result is recorded, and the
AfterEach callbacks run. Returns the events of the iteration and the
stored TestCaseResult. -/
def runOneTest (isClient : Bool) (cls : TestClassDef) (t : TestMethod) :
    List Event × TestCaseResult :=
  let className := cls.displayName.getD cls.ctorName
  let beforeEvs := (runAnnotatedMethods .BeforeEach cls.hooks.beforeEach).1
  match t.options.disabled with
  | some d =>
    if d.value then
      (beforeEvs, mkNewResult t.options.negated className (skipRaw d.message))
    else
      runOneTestEnvStage isClient cls t className beforeEvs
  | none => runOneTestEnvStage isClient cls t className beforeEvs

/-- TestRunOptions of common.ts, restricted to the tags field consumed by
the scheduler (the reporter is a passive observer). -/
structure TestRunOptions where
  tags : Option (List String) := none
deriving DecidableEq, Repr

/-- The mutable state of a TestRunner instance: the per-class result maps
(keyed by class identity, each an insertion-ordered map from method name
to stored result), the three counters, and the options field. -/
structure RunnerState where
  results : List (String × List (String × TestCaseResult)) := []
  failedTests : Nat := 0
  passedTests : Nat := 0
  skippedTests : Nat := 0
  options : TestRunOptions := {}
deriving DecidableEq, Repr

/-- Map.set on an insertion-ordered association list: replace in place
when the key exists, append otherwise. -/
def setAssoc {α : Type} (m : List (String × α)) (k : String) (v : α) : List (String × α) :=
  match m with
  | [] => [(k, v)]
  | (k2, v2) :: rest => if k2 = k then (k, v) :: rest else (k2, v2) :: setAssoc rest k v

/-- resetResults of src/lunit/test-runner.ts (lines 37-42): clear the
results map and zero the three counters. -/
def resetResults (s : RunnerState) : RunnerState :=
  { s with results := [], failedTests := 0, passedTests := 0, skippedTests := 0 }

/-- The storage and counter part of addResult (src/lunit/test-runner.ts
lines 122-170) applied to an already built newResult: store it in the
class result map and increment exactly one counter, passed for a passed
result, otherwise skipped when the skipped flag is set and failed when it
is not. -/
def addResult (classKey : String) (t : TestMethod) (newResult : TestCaseResult)
    (s : RunnerState) : RunnerState :=
  let classResults := (s.results.lookup classKey).getD []
  { s with
    results := setAssoc s.results classKey (setAssoc classResults t.name newResult)
    passedTests := if newResult.passed then s.passedTests + 1 else s.passedTests
    skippedTests :=
      if newResult.passed = false ∧ newResult.skipped = true then s.skippedTests + 1
      else s.skippedTests
    failedTests :=
      if newResult.passed = false ∧ newResult.skipped = false then s.failedTests + 1
      else s.failedTests }

/-- The test loop of runTestClass: run each resolved test in order,
recording its result into the runner state. -/
def runTestsLoop (isClient : Bool) (cls : TestClassDef) :
    List TestMethod → RunnerState → List Event × RunnerState
  | [], s => ([], s)
  | t :: rest, s =>
    let one := runOneTest isClient cls t
    let s2 := addResult cls.ctorName t one.2 s
    let tail := runTestsLoop isClient cls rest s2
    (one.1 ++ tail.1, tail.2)

/-- runTestClass of src/lunit/test-runner.ts (lines 115-244): resolve the
test list, run the BeforeAll callbacks, loop over the tests, then run the
AfterAll callbacks. -/
def runTestClass (isClient : Bool) (tags : List String) (cls : TestClassDef)
    (s : RunnerState) : List Event × RunnerState :=
  let testList := getTestsFromTestClass cls tags
  let beforeAllEvs := (runAnnotatedMethods .BeforeAll cls.hooks.beforeAll).1
  let loop := runTestsLoop isClient cls testList s
  let afterAllEvs := (runAnnotatedMethods .AfterAll cls.hooks.afterAll).1
  (beforeAllEvs ++ loop.1 ++ afterAllEvs, loop.2)

/-- The class loop of run: process the collected classes sequentially. -/
def runClasses (isClient : Bool) (classes : List TestClassDef) (tags : List String)
    (s : RunnerState) : RunnerState :=
  match classes with
  | [] => s
  | cls :: rest => runClasses isClient rest tags (runTestClass isClient tags cls s).2

/-- run of src/lunit/test-runner.ts (lines 73-93): store the options,
reset the accumulated results and counters, then run every collected
class. -/
def run (isClient : Bool) (classes : List TestClassDef) (options : TestRunOptions)
    (s : RunnerState) : RunnerState :=
  let s1 := { s with options := options }
  let s2 := resetResults s1
  runClasses isClient classes (options.tags.getD []) s2

end Lunit

namespace LunitMeta

/-!
The metadata registry of src/unnamed/part_008 (the metadata utilities
imported by src/lunit/test-runner.ts). The TestList attached to a class is
modelled as an optional insertion-ordered map from method name to
TestMethod (none models an absent metadata key).
-/

/-- The TestList metadata slot attached to one class. -/
abbrev TestListSlot : Type := Option (List (String × Lunit.TestMethod))

/-- The merge loop of addTest in src/unnamed/part_008 (lines 26-35): each
field present in the new options is copied into the found descriptor only
when that field is still undefined there, so a field set by an earlier
application keeps its value. -/
def mergeOptionsKeepExisting (old new : Lunit.TestMetadataOptions) :
    Lunit.TestMetadataOptions :=
  { isATest := if old.isATest.isSome then old.isATest else new.isATest
    displayName := if old.displayName.isSome then old.displayName else new.displayName
    tags := if old.tags.isSome then old.tags else new.tags
    order := if old.order.isSome then old.order else new.order
    timeout := if old.timeout.isSome then old.timeout else new.timeout
    disabled := if old.disabled.isSome then old.disabled else new.disabled
    environment := if old.environment.isSome then old.environment else new.environment
    negated := if old.negated.isSome then old.negated else new.negated }

/-- addTest of src/unnamed/part_008 (lines 13-49): create the TestList on
first use; on a repeated application to the same method name, merge the
new option fields into the existing descriptor without clobbering fields
already set; otherwise insert a fresh descriptor. -/
def addTest (slot : TestListSlot) (testName : String)
    (options : Lunit.TestMetadataOptions) : TestListSlot :=
  match slot with
  | some map =>
    match map.lookup testName with
    | some found =>
      some (Lunit.setAssoc map testName
        { name := found.name, options := mergeOptionsKeepExisting found.options options })
    | none => some (Lunit.setAssoc map testName { name := testName, options := options })
  | none => some [(testName, { name := testName, options := options })]

end LunitMeta

namespace SrcUtilsMeta

/-!
The older metadata registry of src/unnamed/part_005. Its addTest carries
the comment that an existing test must not be overridden, but its merge
loop copies every field present in the new options into the found
descriptor without checking whether the field was already set.
-/

/-- The merge loop of addTest in src/unnamed/part_005 (lines 41-47): every
field present in the new options is written into the found descriptor
unconditionally, so a later application overwrites fields set earlier. -/
def mergeOptionsOverwrite (old new : Lunit.TestMetadataOptions) :
    Lunit.TestMetadataOptions :=
  { isATest := if new.isATest.isSome then new.isATest else old.isATest
    displayName := if new.displayName.isSome then new.displayName else old.displayName
    tags := if new.tags.isSome then new.tags else old.tags
    order := if new.order.isSome then new.order else old.order
    timeout := if new.timeout.isSome then new.timeout else old.timeout
    disabled := if new.disabled.isSome then new.disabled else old.disabled
    environment := if new.environment.isSome then new.environment else old.environment
    negated := if new.negated.isSome then new.negated else old.negated }

/-- addTest of src/unnamed/part_005 (lines 28-63): same shape as the
part_008 revision, but the merge overwrites already-set fields. -/
def addTest (slot : LunitMeta.TestListSlot) (testName : String)
    (options : Lunit.TestMetadataOptions) : LunitMeta.TestListSlot :=
  match slot with
  | some map =>
    match map.lookup testName with
    | some found =>
      some (Lunit.setAssoc map testName
        { name := found.name, options := mergeOptionsOverwrite found.options options })
    | none => some (Lunit.setAssoc map testName { name := testName, options := options })
  | none => some [(testName, { name := testName, options := options })]

end SrcUtilsMeta

namespace Lunit

/-- Recognizer for body-invocation events. -/
def isBodyEvent : Event → Bool
  | .bodyInvoked _ => true
  | _ => false

/-- Recognizer for AfterEach hook-invocation events. -/
def isAfterEachEvent : Event → Bool
  | .hookInvoked .AfterEach _ => true
  | _ => false

theorem catchAll_invokeHook (b : Bool) : catchAll (invokeHook b) = .ok () := by
  cases b <;> rfl

theorem runHookList_spec (kind : HookKind) (hooks : List Bool) (i : Nat) :
    (runHookList kind i hooks).1 = (List.range' i hooks.length).map (Event.hookInvoked kind) ∧
      (runHookList kind i hooks).2 = Except.ok () := by
  induction hooks generalizing i with
  | nil => simp [runHookList]
  | cons h rest ih =>
    simp only [runHookList, catchAll_invokeHook, List.length_cons, List.range'_succ,
      List.map_cons]
    exact ⟨by rw [(ih (i + 1)).1], (ih (i + 1)).2⟩

theorem runAnnotatedMethods_events (kind : HookKind) (hooks : List Bool) :
    (runAnnotatedMethods kind hooks).1 =
      (List.range hooks.length).map (Event.hookInvoked kind) := by
  have h := runHookList_spec kind hooks 0
  simp [runAnnotatedMethods, h.1, List.range_eq_range']

theorem runAnnotatedMethods_ok (kind : HookKind) (hooks : List Bool) :
    (runAnnotatedMethods kind hooks).2 = Except.ok () := by
  have h := runHookList_spec kind hooks 0
  simp [runAnnotatedMethods, h.2, catchAll]

theorem hookEvents_filter_body (kind : HookKind) (n : Nat) :
    ((List.range n).map (Event.hookInvoked kind)).filter isBodyEvent = [] := by
  refine List.filter_eq_nil_iff.mpr ?_
  intro e he
  rcases List.mem_map.mp he with ⟨i, _, rfl⟩
  simp [isBodyEvent]

theorem hookEvents_filter_afterEach (kind : HookKind) (n : Nat) (hk : kind ≠ .AfterEach) :
    ((List.range n).map (Event.hookInvoked kind)).filter isAfterEachEvent = [] := by
  refine List.filter_eq_nil_iff.mpr ?_
  intro e he
  rcases List.mem_map.mp he with ⟨i, _, rfl⟩
  cases kind <;> simp [isAfterEachEvent] at hk ⊢

theorem handleTestResult_skipped (t : TestMethod) (b : BodyBehavior) :
    (handleTestResult t b).skipped = false := by
  unfold handleTestResult
  rcases t.options.timeout with _ | timeout
  · cases b <;> rfl
  · dsimp only
    split <;> rfl

theorem mkNewResult_skipped (isNegated : Option Bool) (className : String) (r : RawResult) :
    (mkNewResult isNegated className r).skipped = r.skipped := rfl

theorem mkNewResult_skipRaw_passed (isNegated : Option Bool) (className : String)
    (reason : Option String) : (mkNewResult isNegated className (skipRaw reason)).passed = false := by
  simp [mkNewResult, skipRaw]

/-- Every stored result of one test-loop iteration comes either from the
skip path (with some reason) or from the body path. -/
theorem runOneTest_result_shape (isClient : Bool) (cls : TestClassDef) (t : TestMethod) :
    (∃ m, (runOneTest isClient cls t).2 =
        mkNewResult t.options.negated (cls.displayName.getD cls.ctorName) (skipRaw m)) ∨
      (runOneTest isClient cls t).2 =
        mkNewResult t.options.negated (cls.displayName.getD cls.ctorName)
          (handleTestResult t (cls.body t.name)) := by
  unfold runOneTest runOneTestEnvStage runOneTestBodyStage
  rcases hd : t.options.disabled with _ | d <;>
    rcases he : t.options.environment with _ | environment <;>
    dsimp only
  · exact Or.inr rfl
  · split
    · exact Or.inr rfl
    · exact Or.inl ⟨_, rfl⟩
  · split
    · exact Or.inl ⟨_, rfl⟩
    · exact Or.inr rfl
  · split
    · exact Or.inl ⟨_, rfl⟩
    · split
      · exact Or.inr rfl
      · exact Or.inl ⟨_, rfl⟩

theorem sharesOneElement_nil_right (a : List String) : sharesOneElement a [] = false := by
  unfold sharesOneElement
  split <;> simp

/-- sharesOneElement decides non-empty intersection: whichever side is
turned into the lookup set, the function returns true exactly when some
element belongs to both arrays. -/
theorem sharesOneElement_iff (a b : List String) :
    sharesOneElement a b = true ↔ ∃ x, x ∈ a ∧ x ∈ b := by
  unfold sharesOneElement
  split
  · simp only [List.any_eq_true]
    constructor
    · rintro ⟨x, hx, hb⟩
      exact ⟨x, hx, by simpa using hb⟩
    · rintro ⟨x, hx, hb⟩
      exact ⟨x, hx, by simpa using hb⟩
  · simp only [List.any_eq_true]
    constructor
    · rintro ⟨x, hx, ha⟩
      exact ⟨x, by simpa using ha, hx⟩
    · rintro ⟨x, ha, hx⟩
      exact ⟨x, hx, by simpa using ha⟩

/-- The stored result of one test-loop iteration does not depend on the
registered lifecycle callbacks. -/
theorem runOneTest_snd_hooks (isClient : Bool) (cls : TestClassDef) (h1 h2 : HookSet)
    (t : TestMethod) :
    (runOneTest isClient { cls with hooks := h1 } t).2 =
      (runOneTest isClient { cls with hooks := h2 } t).2 := by
  unfold runOneTest runOneTestEnvStage runOneTestBodyStage
  rcases hd : t.options.disabled with _ | d <;>
    rcases he : t.options.environment with _ | environment <;>
    dsimp only <;>
    (repeat' split) <;> rfl

/-- The body-invocation events of one test-loop iteration: exactly the
body of a test that is not skipped before running, independent of the
lifecycle callbacks. -/
theorem runOneTest_filter_body (isClient : Bool) (cls : TestClassDef) (t : TestMethod) :
    (runOneTest isClient cls t).1.filter isBodyEvent =
      (if skipsBeforeBody isClient t then [] else [Event.bodyInvoked t.name]) := by
  unfold runOneTest runOneTestEnvStage runOneTestBodyStage
  unfold skipsBeforeBody isDisabledTest envMismatch
  rcases hd : t.options.disabled with _ | d <;>
    rcases he : t.options.environment with _ | environment
  · simp [runAnnotatedMethods_events, hookEvents_filter_body, isBodyEvent]
  · rcases hr : testIsOnRightEnvironment isClient environment <;>
      simp [runAnnotatedMethods_events, hookEvents_filter_body, isBodyEvent, hr]
  · rcases hv : d.value <;>
      simp [runAnnotatedMethods_events, hookEvents_filter_body, isBodyEvent, hv]
  · rcases hv : d.value <;> rcases hr : testIsOnRightEnvironment isClient environment <;>
      simp [runAnnotatedMethods_events, hookEvents_filter_body, isBodyEvent, hv, hr]

theorem hookEvents_filter_afterEach_self (n : Nat) :
    ((List.range n).map (Event.hookInvoked .AfterEach)).filter isAfterEachEvent =
      (List.range n).map (Event.hookInvoked .AfterEach) := by
  refine List.filter_eq_self.mpr ?_
  intro e he
  rcases List.mem_map.mp he with ⟨i, _, rfl⟩
  rfl

/-- The AfterEach events of one test-loop iteration: none at all for a
test skipped before its body, one per registered AfterEach callback for an
executed test. -/
theorem runOneTest_filter_afterEach (isClient : Bool) (cls : TestClassDef) (t : TestMethod) :
    (runOneTest isClient cls t).1.filter isAfterEachEvent =
      (if skipsBeforeBody isClient t then [] else
        (List.range cls.hooks.afterEach.length).map (Event.hookInvoked .AfterEach)) := by
  have hbe : ∀ n : Nat,
      ((List.range n).map (Event.hookInvoked .BeforeEach)).filter isAfterEachEvent = [] :=
    fun n => hookEvents_filter_afterEach .BeforeEach n (by decide)
  unfold runOneTest runOneTestEnvStage runOneTestBodyStage
  unfold skipsBeforeBody isDisabledTest envMismatch
  rcases hd : t.options.disabled with _ | d <;>
    rcases he : t.options.environment with _ | environment
  · simp [runAnnotatedMethods_events, hbe, hookEvents_filter_afterEach_self, isAfterEachEvent]
  · rcases hr : testIsOnRightEnvironment isClient environment <;>
      simp [runAnnotatedMethods_events, hbe, hookEvents_filter_afterEach_self,
        isAfterEachEvent, hr]
  · rcases hv : d.value <;>
      simp [runAnnotatedMethods_events, hbe, hookEvents_filter_afterEach_self,
        isAfterEachEvent, hv]
  · rcases hv : d.value <;> rcases hr : testIsOnRightEnvironment isClient environment <;>
      simp [runAnnotatedMethods_events, hbe, hookEvents_filter_afterEach_self,
        isAfterEachEvent, hv, hr]

/-- The body-invocation events of the whole test loop, for any starting
state: one per test that is not skipped before running. -/
theorem runTestsLoop_filter_body (isClient : Bool) (cls : TestClassDef)
    (ts : List TestMethod) (s : RunnerState) :
    (runTestsLoop isClient cls ts s).1.filter isBodyEvent =
      ts.filterMap (fun t =>
        if skipsBeforeBody isClient t then none else some (Event.bodyInvoked t.name)) := by
  induction ts generalizing s with
  | nil => rfl
  | cons t rest ih =>
    rcases hs : skipsBeforeBody isClient t <;>
      simp [runTestsLoop, List.filter_append, runOneTest_filter_body, hs, ih]

/-- The final state of the test loop does not depend on the registered
lifecycle callbacks. -/
theorem runTestsLoop_snd_hooks (isClient : Bool) (cls : TestClassDef) (h1 h2 : HookSet)
    (ts : List TestMethod) (s : RunnerState) :
    (runTestsLoop isClient { cls with hooks := h1 } ts s).2 =
      (runTestsLoop isClient { cls with hooks := h2 } ts s).2 := by
  induction ts generalizing s with
  | nil => rfl
  | cons t rest ih =>
    simp only [runTestsLoop]
    rw [runOneTest_snd_hooks isClient cls h1 h2 t]
    exact ih _

theorem getTestsFromTestClass_hooks (cls : TestClassDef) (h : HookSet) (tags : List String) :
    getTestsFromTestClass { cls with hooks := h } tags = getTestsFromTestClass cls tags := rfl

end Lunit

/-- Concrete descriptor for the C1 analysis: a negated test with a 100 ms
timeout. -/
def c1Method : Lunit.TestMethod :=
  { name := "slow"
    options := { isATest := some true, timeout := some 100, negated := some true } }

/-- C1 counterexample: a negated test with a 100 ms timeout whose body
takes 500 ms is recorded as a PASS with an empty error message, not as a
failure whose message contains 100 — the negation step of addResult
inverts the timeout failure. -/
theorem c1_counterexample :
    (Lunit.mkNewResult c1Method.options.negated "C"
        (Lunit.handleTestResult c1Method (.completes 500))).passed = true ∧
      (Lunit.mkNewResult c1Method.options.negated "C"
        (Lunit.handleTestResult c1Method (.completes 500))).errorMessage = some "" := by
  decide

/-- C1 (amended): for a test with timeout T whose body takes longer than
T, a non-negated test records a failure with message containing T
(exactly the fixed timeout message), but a test with negated true records
a PASS with an empty message — the negation step of addResult does invert
a timeout. -/
theorem c1_timeout_vs_negation (nm cn : String) (opts : Lunit.TestMetadataOptions)
    (T d : Nat) (hT : opts.timeout = some T) (hd : T < d) :
    (opts.negated = some true →
      (Lunit.mkNewResult opts.negated cn
          (Lunit.handleTestResult ⟨nm, opts⟩ (.completes d))).passed = true ∧
        (Lunit.mkNewResult opts.negated cn
          (Lunit.handleTestResult ⟨nm, opts⟩ (.completes d))).errorMessage = some "") ∧
    (opts.negated ≠ some true →
      (Lunit.mkNewResult opts.negated cn
          (Lunit.handleTestResult ⟨nm, opts⟩ (.completes d))).passed = false ∧
        (Lunit.mkNewResult opts.negated cn
          (Lunit.handleTestResult ⟨nm, opts⟩ (.completes d))).errorMessage =
          some ("Test exceeded timeout of " ++ toString T ++ "ms")) := by
  have hres : Lunit.timedStatusResolved T (.completes d) = false := by
    simp only [Lunit.timedStatusResolved, decide_eq_false_iff_not]
    omega
  constructor
  · intro hneg
    simp [Lunit.mkNewResult, Lunit.handleTestResult, hT, hres, hneg]
  · intro hneg
    simp [Lunit.mkNewResult, Lunit.handleTestResult, hT, hres, hneg]

/-- C1 witness: the amended statement applied to the concrete negated
100 ms-timeout test whose body takes 500 ms. -/
theorem c1_witness :
    (Lunit.mkNewResult c1Method.options.negated "C"
        (Lunit.handleTestResult ⟨"slow", c1Method.options⟩ (.completes 500))).passed = true :=
  ((c1_timeout_vs_negation "slow" "C" c1Method.options 100 500 rfl (by decide)).1 rfl).1

/-- C2: for a test without a timeout, negation semantics of addResult: a
negated test whose body throws is recorded as a PASS with the thrown error
discarded (empty message); a negated test whose body completes is a FAIL
with the fixed negative-test message; a non-negated completing body is a
PASS and a non-negated throwing body is a FAIL carrying the stringified
error. -/
theorem c2_negation_semantics (nm cn : String) (opts : Lunit.TestMetadataOptions)
    (h : opts.timeout = none) :
    (opts.negated = some true →
      (∀ e d,
        (Lunit.mkNewResult opts.negated cn
            (Lunit.handleTestResult ⟨nm, opts⟩ (.throws e d))).passed = true ∧
          (Lunit.mkNewResult opts.negated cn
            (Lunit.handleTestResult ⟨nm, opts⟩ (.throws e d))).errorMessage = some "" ∧
          (Lunit.mkNewResult opts.negated cn
            (Lunit.handleTestResult ⟨nm, opts⟩ (.throws e d))).skipped = false) ∧
      (∀ d,
        (Lunit.mkNewResult opts.negated cn
            (Lunit.handleTestResult ⟨nm, opts⟩ (.completes d))).passed = false ∧
          (Lunit.mkNewResult opts.negated cn
            (Lunit.handleTestResult ⟨nm, opts⟩ (.completes d))).errorMessage =
            some "Test was marked as a negative test and unexpectedly did not error" ∧
          (Lunit.mkNewResult opts.negated cn
            (Lunit.handleTestResult ⟨nm, opts⟩ (.completes d))).skipped = false)) ∧
    (opts.negated ≠ some true →
      (∀ d,
        (Lunit.mkNewResult opts.negated cn
            (Lunit.handleTestResult ⟨nm, opts⟩ (.completes d))).passed = true ∧
          (Lunit.mkNewResult opts.negated cn
            (Lunit.handleTestResult ⟨nm, opts⟩ (.completes d))).skipped = false) ∧
      (∀ e d,
        (Lunit.mkNewResult opts.negated cn
            (Lunit.handleTestResult ⟨nm, opts⟩ (.throws e d))).passed = false ∧
          (Lunit.mkNewResult opts.negated cn
            (Lunit.handleTestResult ⟨nm, opts⟩ (.throws e d))).errorMessage = some e ∧
          (Lunit.mkNewResult opts.negated cn
            (Lunit.handleTestResult ⟨nm, opts⟩ (.throws e d))).skipped = false)) := by
  constructor
  · intro hneg
    constructor
    · intro e d
      simp [Lunit.mkNewResult, Lunit.handleTestResult, h, hneg]
    · intro d
      simp [Lunit.mkNewResult, Lunit.handleTestResult, h, hneg]
  · intro hneg
    constructor
    · intro d
      simp [Lunit.mkNewResult, Lunit.handleTestResult, h, hneg]
    · intro e d
      simp [Lunit.mkNewResult, Lunit.handleTestResult, h, hneg]

/-- C2 witness: the negation semantics applied to a concrete negated test
whose body throws. -/
theorem c2_witness :
    (Lunit.mkNewResult (some true) "C"
        (Lunit.handleTestResult ⟨"t", { negated := some true }⟩ (.throws "boom" 5))).passed =
      true :=
  (((c2_negation_semantics "t" "C" { negated := some true } rfl).1 rfl).1 "boom" 5).1

/-- Concrete descriptors for the C3 analysis: two tests with unset order. -/
def c3A : Lunit.TestMethod := ⟨"a", { isATest := some true }⟩

/-- Second concrete descriptor for the C3 analysis. -/
def c3B : Lunit.TestMethod := ⟨"b", { isATest := some true }⟩

/-- C3: an unset order defaults to the sentinel 999, but the comparator
handed to the sort answers true in both directions on two descriptors with
equal effective order, so it is not the strict order Luau table.sort
requires; table.sort is not stable and may reject such a comparator, so
the code cannot guarantee the stable tie-breaking the claim states. -/
theorem c3_comparator_not_strict :
    Lunit.effectiveOrder c3A = 999 ∧ Lunit.effectiveOrder c3B = 999 ∧
      Lunit.orderCmp c3A c3B = true ∧ Lunit.orderCmp c3B c3A = true := by
  decide

/-- C4: evaluating the two addTest revisions on the same pair of
successive applications to one method: the first application sets order 1,
the second order 2. The part_005 revision ends with order 2 (the later
application overwrote the earlier field, contradicting its own comment),
while the part_008 revision keeps order 1 (first-set-wins); both keep a
single descriptor. -/
theorem c4_addTest_merge_divergence :
    SrcUtilsMeta.addTest (SrcUtilsMeta.addTest none "m" { order := some 1 }) "m"
        { order := some 2 } =
      some [("m", { name := "m", options := { order := some 2 } })] ∧
    LunitMeta.addTest (LunitMeta.addTest none "m" { order := some 1 }) "m"
        { order := some 2 } =
      some [("m", { name := "m", options := { order := some 1 } })] := by
  decide

/-- Concrete class for the C5 analysis. -/
def c5Class : Lunit.TestClassDef := { ctorName := "C5Class" }

/-- Concrete descriptor for the C5 analysis: a disabled test with message
pending that is also negated. -/
def c5Method : Lunit.TestMethod :=
  { name := "pendingTest"
    options := { isATest := some true, negated := some true,
                 disabled := some { value := true, message := some "pending" } } }

/-- C5 counterexample: for a disabled test that is also negated, the
stored message is the fixed negative-test message, not the configured
disabled message pending. -/
theorem c5_counterexample :
    (Lunit.runOneTest false c5Class c5Method).2.errorMessage =
        some "Test was marked as a negative test and unexpectedly did not error" ∧
      (Lunit.runOneTest false c5Class c5Method).2.errorMessage ≠ some "pending" := by
  decide

/-- C5 (amended): a test with disabled value true never has its body
invoked and is recorded as skipped immediately with timeElapsed 0,
regardless of any environment restriction; the stored message is the
configured disabled message (defaulted to the empty string) when the test
is not negated, but the negation step of addResult replaces it with the
fixed negative-test message when negated is true. -/
theorem c5_disabled_skip (isClient : Bool) (cls : Lunit.TestClassDef)
    (t : Lunit.TestMethod) (d : Lunit.Disabled) (hd : t.options.disabled = some d)
    (hv : d.value = true) :
    (Lunit.runOneTest isClient cls t).1.filter Lunit.isBodyEvent = [] ∧
    (Lunit.runOneTest isClient cls t).2.skipped = true ∧
    (Lunit.runOneTest isClient cls t).2.timeElapsed = 0 ∧
    (t.options.negated ≠ some true →
      (Lunit.runOneTest isClient cls t).2.errorMessage = some (d.message.getD "")) ∧
    (t.options.negated = some true →
      (Lunit.runOneTest isClient cls t).2.errorMessage =
        some "Test was marked as a negative test and unexpectedly did not error") := by
  have hs : Lunit.skipsBeforeBody isClient t = true := by
    simp [Lunit.skipsBeforeBody, Lunit.isDisabledTest, hd, hv]
  refine ⟨by rw [Lunit.runOneTest_filter_body, if_pos hs], ?_, ?_, ?_, ?_⟩
  · simp [Lunit.runOneTest, hd, hv, Lunit.mkNewResult, Lunit.skipRaw]
  · simp [Lunit.runOneTest, hd, hv, Lunit.mkNewResult, Lunit.skipRaw]
  · intro hneg
    simp [Lunit.runOneTest, hd, hv, Lunit.mkNewResult, Lunit.skipRaw, hneg]
  · intro hneg
    simp [Lunit.runOneTest, hd, hv, Lunit.mkNewResult, Lunit.skipRaw, hneg]

/-- C5 witness: the amended statement applied to the concrete disabled
negated test. -/
theorem c5_witness :
    (Lunit.runOneTest false c5Class c5Method).2.skipped = true ∧
      (Lunit.runOneTest false c5Class c5Method).2.timeElapsed = 0 :=
  ⟨(c5_disabled_skip false c5Class c5Method { value := true, message := some "pending" }
      rfl rfl).2.1,
   (c5_disabled_skip false c5Class c5Method { value := true, message := some "pending" }
      rfl rfl).2.2.1⟩

/-- Concrete tag-filter descriptor for the C6 witness: a test tagged B. -/
def c6Method : Lunit.TestMethod := ⟨"tagged", { isATest := some true, tags := some ["B"] }⟩

/-- C6: for a descriptor with isATest true, the filter retains it when no
tag filter is configured; with a non-empty filter it is retained exactly
when some filter tag belongs to the class tags or to the method tags; in
particular a test with no tags in an untagged class is excluded once any
filter is active. -/
theorem c6_tag_filter_predicate (tags classTags : List String) (t : Lunit.TestMethod)
    (h : t.options.isATest = some true) :
    (tags = [] → Lunit.keepTest tags classTags t = true) ∧
    (tags ≠ [] → (Lunit.keepTest tags classTags t = true ↔
      ∃ x, x ∈ tags ∧ (x ∈ classTags ∨ x ∈ t.options.tags.getD []))) ∧
    (tags ≠ [] → classTags = [] → t.options.tags.getD [] = [] →
      Lunit.keepTest tags classTags t = false) := by
  refine ⟨?_, ?_, ?_⟩
  · rintro rfl
    simp [Lunit.keepTest, h]
  · intro hne
    have hlen : 0 < tags.length := List.length_pos.mpr hne
    simp only [Lunit.keepTest, h, if_pos rfl, hlen, if_true, gt_iff_lt, Bool.or_eq_true,
      Lunit.sharesOneElement_iff]
    constructor
    · rintro (⟨x, hx, hc⟩ | ⟨x, hx, hm⟩)
      · exact ⟨x, hx, Or.inl hc⟩
      · exact ⟨x, hx, Or.inr hm⟩
    · rintro ⟨x, hx, hc | hm⟩
      · exact Or.inl ⟨x, hx, hc⟩
      · exact Or.inr ⟨x, hx, hm⟩
  · intro hne hct hmt
    have hlen : 0 < tags.length := List.length_pos.mpr hne
    simp [Lunit.keepTest, h, hlen, hct, hmt, Lunit.sharesOneElement_nil_right]

/-- C6 witness: with filter A, a test tagged B in a class tagged A is
retained. -/
theorem c6_witness : Lunit.keepTest ["A"] ["A"] c6Method = true :=
  ((c6_tag_filter_predicate ["A"] ["A"] c6Method rfl).2.1 (by decide)).mpr
    ⟨"A", by decide, Or.inl (by decide)⟩

/-- Concrete class for the C7 analysis: one registered AfterEach callback. -/
def c7Class : Lunit.TestClassDef :=
  { ctorName := "C7Class", hooks := { afterEach := [false] } }

/-- Concrete disabled descriptor for the C7 analysis. -/
def c7Disabled : Lunit.TestMethod :=
  ⟨"off", { isATest := some true, disabled := some { value := true, message := none } }⟩

/-- Concrete executed descriptor for the C7 analysis. -/
def c7Enabled : Lunit.TestMethod := ⟨"on", { isATest := some true }⟩

/-- C7 counterexample: in a class with one AfterEach callback, the
iteration of a disabled test invokes no AfterEach callback at all, while
the iteration of an executed test invokes it — the loop continues past the
AfterEach block when a test is skipped. -/
theorem c7_counterexample :
    (Lunit.runOneTest false c7Class c7Disabled).1.filter Lunit.isAfterEachEvent = [] ∧
      (Lunit.runOneTest false c7Class c7Enabled).1.filter Lunit.isAfterEachEvent =
        [Lunit.Event.hookInvoked .AfterEach 0] := by
  decide

/-- C7 (amended): for a test skipped before its body runs (disabled or
wrong environment), the AfterEach callbacks are not invoked for that
slot (the loop continues to the next test); the AfterAll callbacks still
run once after the whole loop. -/
theorem c7_skip_bypasses_afterEach (isClient : Bool) (tags : List String)
    (cls : Lunit.TestClassDef) (t : Lunit.TestMethod) (s : Lunit.RunnerState)
    (h : Lunit.skipsBeforeBody isClient t = true) :
    (Lunit.runOneTest isClient cls t).1.filter Lunit.isAfterEachEvent = [] ∧
    (Lunit.runTestClass isClient tags cls s).1 =
      (Lunit.runAnnotatedMethods .BeforeAll cls.hooks.beforeAll).1 ++
        ((Lunit.runTestsLoop isClient cls (Lunit.getTestsFromTestClass cls tags) s).1 ++
          (List.range cls.hooks.afterAll.length).map (Lunit.Event.hookInvoked .AfterAll)) := by
  constructor
  · rw [Lunit.runOneTest_filter_afterEach, if_pos h]
  · simp only [Lunit.runTestClass, Lunit.runAnnotatedMethods_events, List.append_assoc]

/-- C7 witness: the amended statement applied to the concrete disabled
test in the class with one AfterEach callback. -/
theorem c7_witness :
    (Lunit.runOneTest false c7Class c7Disabled).1.filter Lunit.isAfterEachEvent = [] :=
  (c7_skip_bypasses_afterEach false [] c7Class c7Disabled {} (by decide)).1

/-- C8: resetResults clears the result map and zeroes all three counters,
and run applies it at entry, so running the same collected classes twice
on the same runner leaves exactly the state of a single run — counters and
results never accumulate across runs. -/
theorem c8_run_never_accumulates (isClient : Bool) (classes : List Lunit.TestClassDef)
    (options : Lunit.TestRunOptions) (s : Lunit.RunnerState) :
    (Lunit.resetResults s).results = [] ∧
    (Lunit.resetResults s).passedTests = 0 ∧
    (Lunit.resetResults s).failedTests = 0 ∧
    (Lunit.resetResults s).skippedTests = 0 ∧
    Lunit.run isClient classes options (Lunit.run isClient classes options s) =
      Lunit.run isClient classes options s :=
  ⟨rfl, rfl, rfl, rfl, rfl⟩

/-- C9: every lifecycle callback of a kind is invoked (in registration
order) no matter which of them throw, the wrapped loop always ends
successfully, and the final state of a class batch — its stored results
and the three counters — and its body-invocation events are identical for
any two hook configurations, so a throwing hook never records a failure,
never changes a counter, and never prevents a sibling hook or a test from
running. -/
theorem c9_hook_isolation (isClient : Bool) (tags : List String) (cls : Lunit.TestClassDef)
    (h1 h2 : Lunit.HookSet) (s : Lunit.RunnerState) (kind : Lunit.HookKind)
    (hooks : List Bool) :
    (Lunit.runAnnotatedMethods kind hooks).1 =
      (List.range hooks.length).map (Lunit.Event.hookInvoked kind) ∧
    (Lunit.runAnnotatedMethods kind hooks).2 = Except.ok () ∧
    (Lunit.runTestClass isClient tags { cls with hooks := h1 } s).2 =
      (Lunit.runTestClass isClient tags { cls with hooks := h2 } s).2 ∧
    (Lunit.runTestClass isClient tags { cls with hooks := h1 } s).1.filter Lunit.isBodyEvent =
      (Lunit.getTestsFromTestClass cls tags).filterMap (fun t =>
        if Lunit.skipsBeforeBody isClient t then none
        else some (Lunit.Event.bodyInvoked t.name)) := by
  refine ⟨Lunit.runAnnotatedMethods_events kind hooks,
    Lunit.runAnnotatedMethods_ok kind hooks, ?_, ?_⟩
  · simp only [Lunit.runTestClass]
    exact Lunit.runTestsLoop_snd_hooks isClient cls h1 h2 _ s
  · simp only [Lunit.runTestClass, List.filter_append, Lunit.runAnnotatedMethods_events,
      Lunit.hookEvents_filter_body, Lunit.runTestsLoop_filter_body,
      Lunit.getTestsFromTestClass_hooks]
    simp

/-- C10: the negation step of addResult never flips a skipped result — the
stored result of the skip path keeps skipped true and passed false for any
negation flag — and no recorded result of a test-loop iteration is both
passed and skipped, so exactly one of the pass, fail, skip categories
holds for every recorded result. -/
theorem c10_skip_never_negated (isNegated : Option Bool) (cn : String)
    (reason : Option String) (isClient : Bool) (cls : Lunit.TestClassDef)
    (t : Lunit.TestMethod) :
    (Lunit.mkNewResult isNegated cn (Lunit.skipRaw reason)).skipped = true ∧
    (Lunit.mkNewResult isNegated cn (Lunit.skipRaw reason)).passed = false ∧
    ((Lunit.runOneTest isClient cls t).2.passed &&
      (Lunit.runOneTest isClient cls t).2.skipped) = false := by
  refine ⟨rfl, Lunit.mkNewResult_skipRaw_passed isNegated cn reason, ?_⟩
  rcases Lunit.runOneTest_result_shape isClient cls t with ⟨m, hm⟩ | hb
  · rw [hm]
    simp [Lunit.mkNewResult_skipRaw_passed]
  · rw [hb]
    simp [Lunit.mkNewResult_skipped, Lunit.handleTestResult_skipped]

